import Mathlib

/-!
Verification of the clinical-simulation core of the clinical-mind repository.

Shallow embedding of the simulation core:
  * backend/app/core/agents/case_state_manager.py (clock, vitals evolution,
    investigation lifecycle, treatment ledger),
  * backend/app/core/agents/complication_engine.py (probabilistic
    complications, distractions, trajectory escalation),
  * backend/app/core/agents/clinical_validator.py (safety fallback),
  * backend/app/core/agents/orchestrator.py (investigation-type parsing).

Modelling conventions:
  * Python ints are embedded as ℤ, Python floats as exact rationals ℚ.
  * Python `int(x)` (truncation toward zero) is `pyInt`; Python `round(x, 1)`
    (banker's rounding at one decimal) is `pyRound1`.
  * `random.uniform` / `random.choice` / `random.random` draws are passed in
    explicitly as oracle parameters, so every theorem quantifies over all
    possible draw outcomes.
  * Narrative strings (agent messages, event descriptions) are not needed by
    any claim and are left out of the records that carry them in the source.
-/

namespace ClinicalMind

/-- Truncation toward zero, the semantics of Python `int()` on a rational. -/
def pyInt (q : ℚ) : ℤ := if 0 ≤ q then ⌊q⌋ else -⌊-q⌋

/-- Python min on two rationals, kept executable by the kernel. -/
def pyMinQ (a b : ℚ) : ℚ := if a ≤ b then a else b

/-- Python max on two rationals, kept executable by the kernel. -/
def pyMaxQ (a b : ℚ) : ℚ := if b ≤ a then a else b

theorem pyMinQ_le_left (a b : ℚ) : pyMinQ a b ≤ a := by
  unfold pyMinQ; split <;> linarith

theorem le_pyMinQ {a b c : ℚ} (h1 : c ≤ a) (h2 : c ≤ b) : c ≤ pyMinQ a b := by
  unfold pyMinQ; split <;> linarith

theorem le_pyMaxQ_left (a b : ℚ) : a ≤ pyMaxQ a b := by
  unfold pyMaxQ; split <;> linarith

theorem pyMaxQ_le {a b c : ℚ} (h1 : a ≤ c) (h2 : b ≤ c) : pyMaxQ a b ≤ c := by
  unfold pyMaxQ; split <;> linarith

/-- Round to the nearest integer, ties to even — the semantics of Python
round() at integer precision. -/
def roundHalfEven (q : ℚ) : ℤ :=
  if q - ⌊q⌋ < 1/2 then ⌊q⌋
  else if 1/2 < q - ⌊q⌋ then ⌊q⌋ + 1
  else if Even ⌊q⌋ then ⌊q⌋ else ⌊q⌋ + 1

/-- Python `round(x, 1)`: banker's rounding at one decimal place. -/
def pyRound1 (q : ℚ) : ℚ := (roundHalfEven (10 * q) : ℚ) / 10

theorem roundHalfEven_le {q : ℚ} {n : ℤ} (h : q ≤ n) : roundHalfEven q ≤ n := by
  unfold roundHalfEven
  split
  · have hq := Int.floor_le_floor h
    simpa using hq
  · rename_i h1
    have hne : q ≠ (n : ℚ) := by
      intro he
      subst he
      norm_num [Int.floor_intCast] at h1
    have hlt : q < (n : ℚ) := lt_of_le_of_ne h hne
    have : ⌊q⌋ < n := Int.floor_lt.mpr hlt
    split
    · omega
    · split <;> omega

theorem le_roundHalfEven {q : ℚ} {n : ℤ} (h : (n : ℚ) ≤ q) : n ≤ roundHalfEven q := by
  have hf : n ≤ ⌊q⌋ := Int.le_floor.mpr h
  unfold roundHalfEven
  split
  · exact hf
  · split
    · omega
    · split <;> omega

theorem pyRound1_le {q : ℚ} {n : ℤ} (h : q ≤ n) : pyRound1 q ≤ n := by
  unfold pyRound1
  have h10 : 10 * q ≤ ((10 * n : ℤ) : ℚ) := by push_cast; linarith
  have := roundHalfEven_le h10
  have hc : (roundHalfEven (10 * q) : ℚ) ≤ ((10 * n : ℤ) : ℚ) := by exact_mod_cast this
  rw [div_le_iff₀ (by norm_num : (0:ℚ) < 10)]
  push_cast at hc ⊢
  linarith

theorem le_pyRound1 {q : ℚ} {n : ℤ} (h : (n : ℚ) ≤ q) : (n : ℚ) ≤ pyRound1 q := by
  unfold pyRound1
  have h10 : ((10 * n : ℤ) : ℚ) ≤ 10 * q := by push_cast; linarith
  have := le_roundHalfEven h10
  have hc : ((10 * n : ℤ) : ℚ) ≤ (roundHalfEven (10 * q) : ℚ) := by exact_mod_cast this
  rw [le_div_iff₀ (by norm_num : (0:ℚ) < 10)]
  push_cast at hc ⊢
  linarith

/-- Patient clinical trajectory (`PatientTrajectory` in case_state_manager.py). -/
inductive PatientTrajectory where
  | stable
  | improving
  | deteriorating
  | critical
deriving DecidableEq, Repr

/-- Investigation lifecycle status (`InvestigationStatus`). -/
inductive InvestigationStatus where
  | ordered
  | sample_collected
  | processing
  | ready
  | delivered
deriving DecidableEq, Repr

/-- The patient's vital-sign vector (`current_vitals` dict in
CaseStateManager).  Integer fields as ℤ, temperature as ℚ. -/
structure Vitals where
  bp_systolic : ℤ
  bp_diastolic : ℤ
  hr : ℤ
  rr : ℤ
  temp : ℚ
  spo2 : ℤ
deriving DecidableEq, Repr

/-- Random draws consumed by one `_evolve_vitals` call: `u1..u3` are the
`random.uniform` draws of the deteriorating branch, `c1`/`c2` the
`random.choice` draws of the stable branch.  They are oracle inputs, so
theorems hold for every outcome. -/
structure Draws where
  u1 : ℚ
  u2 : ℚ
  u3 : ℚ
  c1 : ℤ
  c2 : ℤ
deriving Repr

/-- Tail of CaseStateManager._evolve_vitals: the clamp of every field to its
physiological bounds that runs after every trajectory branch. -/
def clamp_vitals (w : Vitals) : Vitals :=
  { hr := max 30 (min 200 w.hr),
    rr := max 6 (min 50 w.rr),
    spo2 := max 60 (min 100 w.spo2),
    bp_systolic := max 50 (min 220 w.bp_systolic),
    bp_diastolic := max 30 (min 130 w.bp_diastolic),
    temp := pyRound1 (pyMaxQ 35 (pyMinQ 42 w.temp)) }

/-- CaseStateManager._evolve_vitals: branch on trajectory, drift/jitter the
fields, then clamp every field to its physiological bounds. -/
def evolve_vitals (traj : PatientTrajectory) (minutes_passed : ℤ) (d : Draws)
    (v : Vitals) : Vitals :=
  clamp_vitals <|
    match traj with
    | .deteriorating =>
      let rate : ℚ := (minutes_passed : ℚ) / 60
      { v with
        hr := min 180 (v.hr + pyInt (3 * rate + d.u1)),
        rr := min 45 (v.rr + pyInt (2 * rate + d.u2)),
        spo2 := max 70 (v.spo2 - pyInt (1 * rate + d.u3)),
        bp_systolic := max 60 (v.bp_systolic - pyInt (2 * rate)),
        temp := pyMinQ 41 (v.temp + 1/10 * rate) }
    | .improving =>
      let rate : ℚ := (minutes_passed : ℚ) / 60
      { v with
        hr := v.hr + pyInt ((80 - (v.hr : ℚ)) * (1/10) * rate),
        rr := v.rr + pyInt ((16 - (v.rr : ℚ)) * (1/10) * rate),
        spo2 := min 100 (v.spo2 + pyInt ((98 - (v.spo2 : ℚ)) * (1/10) * rate)),
        bp_systolic := v.bp_systolic + pyInt ((120 - (v.bp_systolic : ℚ)) * (1/10) * rate),
        temp := v.temp + (37 - v.temp) * (1/10) * rate }
    | .critical =>
      let rate : ℚ := (minutes_passed : ℚ) / 30
      { v with
        hr := min 200 (v.hr + pyInt (5 * rate)),
        rr := min 50 (v.rr + pyInt (3 * rate)),
        spo2 := max 60 (v.spo2 - pyInt (3 * rate)),
        bp_systolic := max 50 (v.bp_systolic - pyInt (5 * rate)) }
    | .stable =>
      { v with hr := v.hr + d.c1, rr := v.rr + d.c2 }

/-- The declared physiological clamp bounds for every vital-sign field. -/
def VitalsInBounds (v : Vitals) : Prop :=
  30 ≤ v.hr ∧ v.hr ≤ 200 ∧
  6 ≤ v.rr ∧ v.rr ≤ 50 ∧
  60 ≤ v.spo2 ∧ v.spo2 ≤ 100 ∧
  50 ≤ v.bp_systolic ∧ v.bp_systolic ≤ 220 ∧
  30 ≤ v.bp_diastolic ∧ v.bp_diastolic ≤ 130 ∧
  35 ≤ v.temp ∧ v.temp ≤ 42

instance (v : Vitals) : Decidable (VitalsInBounds v) := by
  unfold VitalsInBounds
  infer_instance

theorem clamp_vitals_inBounds (w : Vitals) : VitalsInBounds (clamp_vitals w) := by
  unfold clamp_vitals VitalsInBounds
  refine ⟨le_max_left _ _, max_le (by norm_num) (min_le_left _ _),
          le_max_left _ _, max_le (by norm_num) (min_le_left _ _),
          le_max_left _ _, max_le (by norm_num) (min_le_left _ _),
          le_max_left _ _, max_le (by norm_num) (min_le_left _ _),
          le_max_left _ _, max_le (by norm_num) (min_le_left _ _),
          ?_, ?_⟩
  · have h := le_pyRound1 (n := 35) (q := pyMaxQ 35 (pyMinQ 42 w.temp))
      (by push_cast; exact le_pyMaxQ_left _ _)
    exact_mod_cast h
  · have h := pyRound1_le (n := 42) (q := pyMaxQ 35 (pyMinQ 42 w.temp))
      (by push_cast; exact pyMaxQ_le (by norm_num) (pyMinQ_le_left _ _))
    exact_mod_cast h

theorem evolve_vitals_inBounds (traj : PatientTrajectory) (m : ℤ) (d : Draws)
    (v : Vitals) : VitalsInBounds (evolve_vitals traj m d v) :=
  clamp_vitals_inBounds _

/-- An ordered investigation (`OrderedInvestigation` dataclass); identity,
result text and urgency flag play no role in any claim and are omitted. -/
structure Inv where
  ordered_at : ℤ
  turnaround : ℤ
  status : InvestigationStatus
deriving DecidableEq, Repr

/-- Loop body of CaseStateManager._check_investigations for one
investigation: returns the updated investigation and whether an
investigation-ready event was emitted for it.  The Python comparison
`time_since_order >= inv.turnaround * 0.5` on integers is written as
`2 * time_since_order ≥ turnaround`. -/
def check_one_investigation (elapsed : ℤ) (inv : Inv) : Inv × Bool :=
  if inv.status = .ordered ∨ inv.status = .sample_collected ∨ inv.status = .processing then
    let time_since_order := elapsed - inv.ordered_at
    if time_since_order ≥ inv.turnaround then
      ({ inv with status := .ready }, true)
    else if 2 * time_since_order ≥ inv.turnaround ∧ inv.status = .ordered then
      ({ inv with status := .processing }, false)
    else (inv, false)
  else (inv, false)

/-- CaseStateManager._check_investigations: step every tracked investigation
and count the investigation-ready events emitted. -/
def check_investigations (elapsed : ℤ) (invs : List Inv) : List Inv × ℕ :=
  let stepped := invs.map (check_one_investigation elapsed)
  (stepped.map Prod.fst, (stepped.filter (fun r => r.2 = true)).length)

/-- Vital-sign deltas of a treatment (`effects` dict keys handled by
_apply_treatment_effects); an absent key is `none`. -/
structure Effects where
  hr_change : Option ℤ := none
  bp_systolic_change : Option ℤ := none
  spo2_change : Option ℤ := none
  rr_change : Option ℤ := none
  temp_change : Option ℚ := none
deriving Repr

/-- Vitals part of CaseStateManager._apply_treatment_effects (the
appropriate-treatment branch applies each present delta with its own
reclamp). -/
def apply_effect_deltas (effects : Effects) (v : Vitals) : Vitals :=
  let v := match effects.hr_change with
    | some c => { v with hr := max 40 (min 180 (v.hr + c)) }
    | none => v
  let v := match effects.bp_systolic_change with
    | some c => { v with bp_systolic := max 60 (min 200 (v.bp_systolic + c)) }
    | none => v
  let v := match effects.spo2_change with
    | some c => { v with spo2 := min 100 (max 60 (v.spo2 + c)) }
    | none => v
  let v := match effects.rr_change with
    | some c => { v with rr := max 8 (min 40 (v.rr + c)) }
    | none => v
  match effects.temp_change with
    | some c => { v with temp := pyRound1 (pyMaxQ 35 (pyMinQ 42 (v.temp + c))) }
    | none => v

/-- Session state: the fields of CaseStateManager that the claims touch
(clock, vitals, history, trajectory, investigations, treatment
descriptions).  Events, ids and narrative text are omitted. -/
structure Session where
  elapsed : ℤ
  vitals : Vitals
  history : List (ℤ × Vitals)
  traj : PatientTrajectory
  invs : List Inv
  treatments : List (List Char)

/-- CaseStateManager._apply_treatment_effects: trajectory one step better
plus deltas when appropriate, trajectory one step worse when not. -/
def apply_treatment_effects (effects : Effects) (is_appropriate : Bool)
    (s : Session) : Session :=
  if is_appropriate then
    let s := { s with
      traj :=
        if s.traj = PatientTrajectory.deteriorating ∨ s.traj = PatientTrajectory.critical then
          PatientTrajectory.stable
        else if s.traj = PatientTrajectory.stable then PatientTrajectory.improving
        else s.traj }
    { s with vitals := apply_effect_deltas effects s.vitals }
  else
    { s with
      traj :=
        if s.traj = PatientTrajectory.stable then PatientTrajectory.deteriorating
        else if s.traj = PatientTrajectory.deteriorating then PatientTrajectory.critical
        else s.traj }

/-- CaseStateManager.record_treatment: append the treatment description and
apply its effects immediately. -/
def record_treatment (description : List Char) (effects : Effects)
    (is_appropriate : Bool) (s : Session) : Session :=
  apply_treatment_effects effects is_appropriate
    { s with treatments := s.treatments ++ [description] }

/-- Fixed per-action time cost (`ACTION_TIME_COST`, default 10). -/
def action_time_cost (action : String) : ℤ :=
  if action = "talk_to_patient" then 10
  else if action = "ask_nurse" then 5
  else if action = "consult_senior" then 10
  else if action = "examine_patient" then 15
  else if action = "order_investigation" then 5
  else if action = "order_treatment" then 5
  else if action = "team_huddle" then 15
  else if action = "wait_for_results" then 30
  else if action = "review_results" then 5
  else 10

/-- CaseStateManager.advance_time: add the action's time cost, evolve
vitals, step the investigation lifecycle, and append a vitals snapshot.
The event queue bookkeeping of _check_patient_events touches no field
modelled here. -/
def advance_time (action : String) (d : Draws) (s : Session) : Session :=
  let elapsed := s.elapsed + action_time_cost action
  let v := evolve_vitals s.traj (action_time_cost action) d s.vitals
  let invs := (check_investigations elapsed s.invs).1
  { s with elapsed := elapsed, vitals := v, invs := invs,
           history := s.history ++ [(elapsed, v)] }

/-- CaseStateManager._initial_trajectory: advanced cases or bad initial
vitals start deteriorating, everything else starts stable. -/
def initial_trajectory (difficulty : String) (v : Vitals) : PatientTrajectory :=
  if difficulty = "advanced" ∨ v.spo2 < 90 ∨ v.hr > 130 then .deteriorating
  else .stable

/-- CaseStateManager.__init__: the vitals come straight from the case
description (no clamp is applied), and the time-0 snapshot of that
unclamped vector is pushed onto the history. -/
def init_session (case_vitals : Vitals) (difficulty : String) : Session :=
  { elapsed := 0,
    vitals := case_vitals,
    history := [(0, case_vitals)],
    traj := initial_trajectory difficulty case_vitals,
    invs := [],
    treatments := [] }

/-! String helpers mirroring the Python string operations the engine uses.
Strings are processed as character lists; the repository's inputs are ASCII,
and all `replace` calls in the source use single-character patterns. -/

/-- ASCII case of Python str.lower on one character. -/
def pyLowerChar (c : Char) : Char :=
  if 'A' ≤ c ∧ c ≤ 'Z' then Char.ofNat (c.toNat + 32) else c

/-- Python str.lower. -/
def pyLower (s : List Char) : List Char := s.map pyLowerChar

/-- Python str.replace with single-character pattern and replacement. -/
def pyReplaceChar (a b : Char) (s : List Char) : List Char :=
  s.map (fun c => if c = a then b else c)

/-- Helper for pySplit: accumulate the current token (reversed). -/
def pySplitAux : List Char → List Char → List (List Char)
  | [], acc => if acc = [] then [] else [acc.reverse]
  | c :: rest, acc =>
    if c = ' ' then
      if acc = [] then pySplitAux rest [] else acc.reverse :: pySplitAux rest []
    else pySplitAux rest (c :: acc)

/-- Python str.split() with no argument: split on whitespace runs, dropping
empties (the texts involved use plain spaces). -/
def pySplit (s : List Char) : List (List Char) := pySplitAux s []

/-- Python str.strip(): drop leading and trailing whitespace. -/
def pyStrip (s : List Char) : List Char :=
  ((s.dropWhile (fun c => c = ' ')).reverse.dropWhile (fun c => c = ' ')).reverse

/-- Python substring containment x in y. -/
def isSubstr : List Char → List Char → Bool
  | n, [] => n.isEmpty
  | n, c :: t => n.isPrefixOf (c :: t) || isSubstr n (t : List Char)

/-- A complication definition (entries of SPECIALTY_COMPLICATIONS).
Narrative description and agent message are omitted; vitals criteria are
(criterion-name, threshold) pairs. -/
structure Complication where
  name : String
  probability_base : ℚ
  time_window : ℤ × ℤ
  vitals_criteria : List (String × ℚ)
  treatment_prevents : List String
  urgency : String
  trajectory_effect : String
deriving DecidableEq, Repr

/-- ComplicationEngine._collect_treatment_keywords: lowercase, separate on
punctuation, keep tokens longer than two characters plus the whole
description.  The Python set is represented as a list; only membership is
ever used. -/
def collect_treatment_keywords (treatments : List (List Char)) : List (List Char) :=
  treatments.foldl (fun keywords desc =>
    let desc_lower := pyLower desc
    let tokens := pySplit (pyReplaceChar '/' ' '
      (pyReplaceChar '-' '_' (pyReplaceChar '.' ' ' (pyReplaceChar ',' ' ' desc_lower))))
    keywords ++ tokens.filter (fun t => 2 < t.length) ++ [desc_lower]) []

/-- ComplicationEngine._is_treated: a prevention keyword matches directly or
by substring in either direction. -/
def is_treated (c : Complication) (treatment_keywords : List (List Char)) : Bool :=
  c.treatment_prevents.any (fun prevent_keyword =>
    let prevent_lower := pyReplaceChar '-' '_' (pyLower prevent_keyword.toList)
    treatment_keywords.any (fun tk => tk = prevent_lower) ||
    treatment_keywords.any (fun tk => isSubstr prevent_lower tk || isSubstr tk prevent_lower))

/-- Loop body of ComplicationEngine._evaluate_vitals_criteria: one matched
criterion multiplies the running multiplier by 1.5. -/
def criteria_step (v : Vitals) (m : ℚ) (crit : String × ℚ) : ℚ :=
  if crit.1 = "bp_systolic_below" then
    if (v.bp_systolic : ℚ) < crit.2 then m * (3/2) else m
  else if crit.1 = "bp_systolic_above" then
    if crit.2 < (v.bp_systolic : ℚ) then m * (3/2) else m
  else if crit.1 = "hr_above" then
    if crit.2 < (v.hr : ℚ) then m * (3/2) else m
  else if crit.1 = "hr_below" then
    if (v.hr : ℚ) < crit.2 then m * (3/2) else m
  else if crit.1 = "spo2_below" then
    if (v.spo2 : ℚ) < crit.2 then m * (3/2) else m
  else if crit.1 = "rr_above" then
    if crit.2 < (v.rr : ℚ) then m * (3/2) else m
  else if crit.1 = "temp_above" then
    if crit.2 < v.temp then m * (3/2) else m
  else if crit.1 = "temp_below" then
    if v.temp < crit.2 then m * (3/2) else m
  else m

/-- ComplicationEngine._evaluate_vitals_criteria. -/
def evaluate_vitals_criteria (c : Complication) (v : Vitals) : ℚ :=
  if c.vitals_criteria = [] then 1
  else c.vitals_criteria.foldl (criteria_step v) 1

/-- Probability value of ComplicationEngine._calculate_probability before
the final cap line. -/
def raw_probability (c : Complication) (elapsed : ℤ) (treated : Bool)
    (v : Vitals) (difficulty_multiplier : ℚ) : ℚ :=
  let base := c.probability_base
  let window_duration : ℚ := pyMaxQ ((c.time_window.2 : ℚ) - (c.time_window.1 : ℚ)) 1
  let time_into_window : ℚ := (elapsed : ℚ) - (c.time_window.1 : ℚ)
  let peak_point := window_duration * (3/4)
  let time_factor := if time_into_window ≤ peak_point then time_into_window / peak_point else 1
  let p := base * time_factor
  let p := p * difficulty_multiplier
  let p := if treated then p * (1/20) else p
  p * evaluate_vitals_criteria c v

/-- ComplicationEngine._calculate_probability: the raw product capped into
[0, 0.6]. -/
def calculate_probability (c : Complication) (elapsed : ℤ) (treated : Bool)
    (v : Vitals) (difficulty_multiplier : ℚ) : ℚ :=
  pyMinQ (3/5) (pyMaxQ 0 (raw_probability c elapsed treated v difficulty_multiplier))

/-- ComplicationEngine._escalate_trajectory: keyed on the definition's
trajectory_effect field (default "deteriorating"). -/
def escalate_trajectory (c : Complication) (traj : PatientTrajectory) :
    PatientTrajectory :=
  if c.trajectory_effect = "critical" then PatientTrajectory.critical
  else if c.trajectory_effect = "deteriorating" then
    if traj = PatientTrajectory.stable ∨ traj = PatientTrajectory.improving then
      PatientTrajectory.deteriorating
    else traj
  else traj

/-- A distraction definition (entries of DISTRACTION_EVENTS); narrative
fields omitted. -/
structure Distraction where
  name : String
  min_time : ℤ
  max_time : ℤ
  probability : ℚ
deriving DecidableEq, Repr

/-- The DISTRACTION_EVENTS table. -/
def DISTRACTION_EVENTS : List Distraction :=
  [⟨"Another Patient Emergency", 30, 180, 3/100⟩,
   ⟨"Relative Confrontation", 20, 120, 4/100⟩,
   ⟨"Phone Call from Lab", 30, 180, 5/100⟩,
   ⟨"Equipment Failure", 15, 120, 3/100⟩,
   ⟨"Blood Bank Delay", 30, 120, 4/100⟩]

/-- Mutable engine state: the fired-complication set, the fired-distraction
set (Python sets, represented as duplicate-free lists via pyInsert), and the
state manager's trajectory that firing escalates. -/
structure EngineState where
  fired : List String
  fired_distractions : List String
  traj : PatientTrajectory
deriving Repr

/-- Python set.add on the list representation of a set. -/
def pyInsert (n : String) (l : List String) : List String :=
  if n ∈ l then l else l ++ [n]

/-- Complication loop of ComplicationEngine.check_complications.  The PRNG
is an oracle: candidate `i` of the list rolls the value `draws i`, so every
theorem quantifies over all draw outcomes.  The returned list holds the
names of the complications fired during this tick, in firing order. -/
def check_complications_go (elapsed : ℤ) (v : Vitals) (ks : List (List Char))
    (dm : ℚ) (draws : ℕ → ℚ) :
    List Complication → ℕ → EngineState → EngineState × List String
  | [], _i, st => (st, [])
  | c :: rest, i, st =>
    if c.name ∈ st.fired then
      check_complications_go elapsed v ks dm draws rest (i + 1) st
    else if elapsed < c.time_window.1 ∨ c.time_window.2 < elapsed then
      check_complications_go elapsed v ks dm draws rest (i + 1) st
    else
      let treated := is_treated c ks
      let p := calculate_probability c elapsed treated v dm
      if draws i < p then
        let st1 : EngineState :=
          { st with fired := pyInsert c.name st.fired,
                    traj := escalate_trajectory c st.traj }
        let r := check_complications_go elapsed v ks dm draws rest (i + 1) st1
        (r.1, c.name :: r.2)
      else
        check_complications_go elapsed v ks dm draws rest (i + 1) st

/-- Distraction loop of ComplicationEngine._check_distractions: returns at
most one fired distraction name per tick. -/
def check_distractions_go (elapsed : ℤ) (dm : ℚ) (draws : ℕ → ℚ) :
    List Distraction → ℕ → List String → List String × Option String
  | [], _i, fd => (fd, none)
  | d :: rest, i, fd =>
    if d.name ∈ fd then check_distractions_go elapsed dm draws rest (i + 1) fd
    else if elapsed < d.min_time ∨ d.max_time < elapsed then
      check_distractions_go elapsed dm draws rest (i + 1) fd
    else if draws i < d.probability * dm then
      (pyInsert d.name fd, some d.name)
    else
      check_distractions_go elapsed dm draws rest (i + 1) fd

/-- ComplicationEngine._check_distractions: capped at two firings per
session. -/
def check_distractions (elapsed : ℤ) (dm : ℚ) (draws : ℕ → ℚ)
    (fd : List String) : List String × Option String :=
  if 2 ≤ fd.length then (fd, none)
  else check_distractions_go elapsed dm draws DISTRACTION_EVENTS 0 fd

/-- Inputs of one ComplicationEngine.check_complications call: the clock,
vitals and treatments read from the state manager, and the oracle draws for
the complication loop and the distraction loop. -/
structure TickInput where
  elapsed : ℤ
  vitals : Vitals
  treatments : List (List Char)
  drawsC : ℕ → ℚ
  drawsD : ℕ → ℚ

/-- One full ComplicationEngine.check_complications tick: the complication
loop followed by the distraction check.  Returns the fired complication
names and the optionally fired distraction name. -/
def check_complications (comps : List Complication) (dm : ℚ) (t : TickInput)
    (st : EngineState) : EngineState × List String × Option String :=
  let ks := collect_treatment_keywords t.treatments
  let r := check_complications_go t.elapsed t.vitals ks dm t.drawsC comps 0 st
  let dres := check_distractions t.elapsed dm t.drawsD r.1.fired_distractions
  ({ r.1 with fired_distractions := dres.1 }, r.2, dres.2)

/-- A sequence of engine ticks: concatenated complication events and the
total number of distraction firings. -/
def engine_run (comps : List Complication) (dm : ℚ) :
    List TickInput → EngineState → EngineState × List String × ℕ
  | [], st => (st, [], 0)
  | t :: ts, st =>
    let r := check_complications comps dm t st
    let rest := engine_run comps dm ts r.1
    (rest.1, r.2.1 ++ rest.2.1, (if r.2.2.isSome then 1 else 0) + rest.2.2)

/-- Fresh engine state (fired sets empty) embedded with the session's
initial trajectory. -/
def init_engine (traj : PatientTrajectory) : EngineState :=
  { fired := [], fired_distractions := [], traj := traj }

/-- The Septic Shock entry of SPECIALTY_COMPLICATIONS["infectious"]. -/
def septicShock : Complication :=
  { name := "Septic Shock",
    probability_base := 18/100,
    time_window := (30, 120),
    vitals_criteria :=
      [("bp_systolic_below", 90), ("hr_above", 110), ("temp_above", 77/2)],
    treatment_prevents :=
      ["antibiotics", "iv_fluids", "noradrenaline", "vasopressor",
       "normal_saline", "ringer_lactate"],
    urgency := "critical",
    trajectory_effect := "critical" }

/-- The Compartment Syndrome entry of SPECIALTY_COMPLICATIONS["emergency"]:
its urgency tier is critical while its trajectory_effect is only
deteriorating. -/
def compartmentSyndrome : Complication :=
  { name := "Compartment Syndrome",
    probability_base := 8/100,
    time_window := (30, 240),
    vitals_criteria := [("hr_above", 100)],
    treatment_prevents :=
      ["fasciotomy", "orthopedic_consult", "surgical_consult",
       "cast_removal", "elevation"],
    urgency := "critical",
    trajectory_effect := "deteriorating" }

/-- The Cardiogenic Shock entry of SPECIALTY_COMPLICATIONS["cardiology"]. -/
def cardiogenicShock : Complication :=
  { name := "Cardiogenic Shock",
    probability_base := 15/100,
    time_window := (30, 180),
    vitals_criteria := [("bp_systolic_below", 90), ("hr_above", 110)],
    treatment_prevents :=
      ["pci", "thrombolysis", "streptokinase", "tenecteplase", "aspirin",
       "heparin", "inotrope", "dobutamine"],
    urgency := "critical",
    trajectory_effect := "critical" }

/-! Clinical validator (clinical_validator.py). -/

/-- Result shape returned by ClinicalValidator.validate_action; the issues
list and teaching point are always empty/None on the paths modelled here
and are omitted. -/
structure ValidationResult where
  safety_level : String
  nurse_intervention : Option String
  senior_intervention : Option String
  proceed : Bool
deriving DecidableEq, Repr

/-- Action types that validate_action treats as always safe. -/
def safe_actions : List String :=
  ["talk_to_patient", "ask_nurse", "consult_senior", "examine_patient",
   "team_huddle"]

/-- ClinicalValidator._fallback_validation: allow with caution for
treatments, plain safe for everything else. -/
def fallback_validation (student_action action_type : String) :
    ValidationResult :=
  if action_type = "order_treatment" then
    { safety_level := "caution",
      nurse_intervention :=
        some ("Doctor, just confirming the order — " ++ student_action ++
          ". Shall I proceed?"),
      senior_intervention := none,
      proceed := true }
  else
    { safety_level := "safe",
      nurse_intervention := none,
      senior_intervention := none,
      proceed := true }

/-- ClinicalValidator.validate_action in the unreachable-collaborator case:
with no client configured, and equally when the API call raises, the safe
action shortcut applies and everything else lands in
_fallback_validation. -/
def validate_action_unreachable (student_action action_type : String) :
    ValidationResult :=
  if action_type ∈ safe_actions then
    { safety_level := "safe",
      nurse_intervention := none,
      senior_intervention := none,
      proceed := true }
  else fallback_validation student_action action_type

/-! Investigation ordering (orchestrator._parse_investigation_type and
CaseStateManager.order_investigation). -/

/-- Keyword-to-type mappings of _parse_investigation_type, in source
(insertion) order. -/
def investigation_mappings : List (String × String) :=
  [("cbc", "cbc"), ("complete blood count", "cbc"), ("blood count", "cbc"),
   ("hemogram", "cbc"),
   ("rft", "rft"), ("renal function", "rft"), ("kidney function", "rft"),
   ("creatinine", "rft"),
   ("lft", "lft"), ("liver function", "lft"), ("bilirubin", "lft"),
   ("sgpt", "lft"),
   ("blood sugar", "blood_sugar"), ("rbs", "rbs"), ("fbs", "fbs"),
   ("abg", "abg"), ("arterial blood gas", "abg"), ("blood gas", "abg"),
   ("ecg", "ecg"), ("ekg", "ecg"), ("electrocardiogram", "ecg"),
   ("chest x-ray", "xray_chest"), ("cxr", "xray_chest"),
   ("chest xray", "xray_chest"),
   ("x-ray", "xray"), ("xray", "xray"),
   ("ultrasound", "ultrasound"), ("usg", "ultrasound"),
   ("echo", "echo"), ("echocardiography", "echo"), ("2d echo", "echo"),
   ("ct scan", "ct_scan"), ("ct", "ct_scan"),
   ("mri", "mri"),
   ("troponin", "troponin"), ("d-dimer", "d_dimer"), ("d dimer", "d_dimer"),
   ("blood culture", "blood_culture"),
   ("urine routine", "urine_routine"), ("urine culture", "urine_culture"),
   ("electrolytes", "serum_electrolytes"), ("sodium", "serum_electrolytes"),
   ("coagulation", "coagulation"), ("pt inr", "pt_inr"), ("pt/inr", "pt_inr"),
   ("thyroid", "thyroid"), ("tft", "thyroid"), ("tsh", "thyroid"),
   ("hba1c", "hba1c"), ("amylase", "amylase"), ("lipase", "lipase"),
   ("dengue", "dengue_ns1"), ("ns1", "dengue_ns1"),
   ("malaria", "malaria_smear"), ("peripheral smear", "malaria_smear"),
   ("widal", "widal"), ("hiv", "hiv"), ("hbsag", "hbsag"),
   ("csf", "csf_analysis"), ("lumbar puncture", "csf_analysis"),
   ("blood group", "blood_group"), ("crossmatch", "crossmatch"),
   ("procalcitonin", "procalcitonin"), ("bnp", "bnp")]

/-- AgentOrchestrator._parse_investigation_type: first keyword contained in
the lowercased stripped description wins; otherwise spaces become
underscores and the result is truncated to 30 characters. -/
def parse_investigation_type (description : List Char) : List Char :=
  let desc := pyStrip (pyLower description)
  match investigation_mappings.find? (fun kv => isSubstr kv.1.toList desc) with
  | some kv => kv.2.toList
  | none => (pyReplaceChar ' ' '_' desc).take 30

/-- Routine turnaround, urgent turnaround and display label of one
INVESTIGATION_TURNAROUND entry. -/
structure InvInfo where
  turnaround : ℤ
  urgent : ℤ
  label : String
deriving DecidableEq, Repr

/-- The fallback entry INVESTIGATION_TURNAROUND["_default"]. -/
def default_inv_info : InvInfo := ⟨180, 60, "Investigation"⟩

/-- The INVESTIGATION_TURNAROUND lookup table. -/
def INVESTIGATION_TURNAROUND : List (String × InvInfo) :=
  [("cbc", ⟨120, 30, "Complete Blood Count"⟩),
   ("rft", ⟨150, 45, "Renal Function Test"⟩),
   ("lft", ⟨150, 45, "Liver Function Test"⟩),
   ("blood_sugar", ⟨30, 10, "Blood Sugar (Random)"⟩),
   ("rbs", ⟨30, 10, "Random Blood Sugar"⟩),
   ("fbs", ⟨30, 10, "Fasting Blood Sugar"⟩),
   ("urine_routine", ⟨60, 20, "Urine Routine/Microscopy"⟩),
   ("serum_electrolytes", ⟨120, 30, "Serum Electrolytes"⟩),
   ("abg", ⟨20, 10, "Arterial Blood Gas"⟩),
   ("hba1c", ⟨180, 60, "HbA1c"⟩),
   ("coagulation", ⟨120, 30, "PT/INR/aPTT"⟩),
   ("pt_inr", ⟨120, 30, "PT/INR"⟩),
   ("blood_group", ⟨30, 15, "Blood Group & Rh"⟩),
   ("crossmatch", ⟨60, 30, "Crossmatch"⟩),
   ("troponin", ⟨90, 30, "Troponin I/T"⟩),
   ("d_dimer", ⟨120, 45, "D-Dimer"⟩),
   ("bnp", ⟨120, 45, "BNP/NT-proBNP"⟩),
   ("procalcitonin", ⟨180, 60, "Procalcitonin"⟩),
   ("blood_culture", ⟨2880, 2880, "Blood Culture (Prelim 24h, Final 48h)"⟩),
   ("urine_culture", ⟨2880, 2880, "Urine Culture"⟩),
   ("csf_analysis", ⟨120, 45, "CSF Analysis"⟩),
   ("amylase", ⟨120, 30, "Serum Amylase"⟩),
   ("lipase", ⟨120, 30, "Serum Lipase"⟩),
   ("thyroid", ⟨240, 120, "Thyroid Profile (T3/T4/TSH)"⟩),
   ("dengue_ns1", ⟨60, 30, "Dengue NS1 Antigen"⟩),
   ("dengue_serology", ⟨120, 60, "Dengue IgM/IgG"⟩),
   ("malaria_smear", ⟨60, 20, "Peripheral Smear for MP"⟩),
   ("malaria_rdt", ⟨15, 10, "Malaria Rapid Test"⟩),
   ("widal", ⟨120, 60, "Widal Test"⟩),
   ("hiv", ⟨60, 30, "HIV Rapid/ELISA"⟩),
   ("hbsag", ⟨60, 30, "HBsAg"⟩),
   ("anti_hcv", ⟨60, 30, "Anti-HCV"⟩),
   ("xray_chest", ⟨30, 15, "Chest X-ray PA"⟩),
   ("xray", ⟨30, 15, "X-ray"⟩),
   ("ecg", ⟨15, 5, "12-lead ECG"⟩),
   ("ultrasound", ⟨120, 30, "USG Abdomen (needs radiology call)"⟩),
   ("echo", ⟨240, 60, "2D Echocardiography"⟩),
   ("ct_scan", ⟨480, 120, "CT Scan (may need referral)"⟩),
   ("mri", ⟨1440, 480, "MRI (usually needs referral)"⟩),
   ("_default", default_inv_info)]

/-- Key-resolution part of CaseStateManager.order_investigation: normalize
the type text into a key, look it up (falling back to the default entry),
and pick the urgent or routine turnaround. -/
def order_investigation_info (investigation_type : List Char)
    (is_urgent : Bool) : List Char × ℤ × String :=
  let inv_type_key :=
    pyReplaceChar '-' '_' (pyReplaceChar ' ' '_' (pyLower investigation_type))
  let inv_info :=
    match INVESTIGATION_TURNAROUND.find? (fun kv => kv.1.toList = inv_type_key) with
    | some kv => kv.2
    | none => default_inv_info
  (inv_type_key, if is_urgent then inv_info.urgent else inv_info.turnaround,
   inv_info.label)

/-! Session runs: the orchestrator mutates a session only through clock
advances, treatment recordings and complication-driven trajectory
escalations. -/

/-- One orchestrated mutation of a session. -/
inductive Step where
  | advance (action : String) (d : Draws)
  | treat (description : List Char) (effects : Effects) (is_appropriate : Bool)
  | escalate (c : Complication)

/-- Apply one step to a session. -/
def run_step (s : Session) : Step → Session
  | .advance action d => advance_time action d s
  | .treat description effects app => record_treatment description effects app s
  | .escalate c => { s with traj := escalate_trajectory c s.traj }

/-- Apply a sequence of steps to a session. -/
def run_session (s : Session) (steps : List Step) : Session :=
  steps.foldl run_step s

/-! Helper lemmas about session runs. -/

/-- Every snapshot of the vitals history is within the clamp bounds. -/
def HistoryInBounds (s : Session) : Prop :=
  ∀ p ∈ s.history, VitalsInBounds p.2

theorem apply_treatment_effects_history (e : Effects) (a : Bool) (s : Session) :
    (apply_treatment_effects e a s).history = s.history := by
  unfold apply_treatment_effects
  split <;> rfl

theorem apply_treatment_effects_elapsed (e : Effects) (a : Bool) (s : Session) :
    (apply_treatment_effects e a s).elapsed = s.elapsed := by
  unfold apply_treatment_effects
  split <;> rfl

theorem record_treatment_history (d : List Char) (e : Effects) (a : Bool)
    (s : Session) : (record_treatment d e a s).history = s.history := by
  unfold record_treatment
  rw [apply_treatment_effects_history]

theorem run_step_history_inBounds (s : Session) (st : Step)
    (h : HistoryInBounds s) : HistoryInBounds (run_step s st) := by
  cases st with
  | advance action d =>
    intro p hp
    simp only [run_step, advance_time, List.mem_append, List.mem_singleton] at hp
    rcases hp with hp | hp
    · exact h p hp
    · subst hp
      exact evolve_vitals_inBounds _ _ _ _
  | treat dsc e a =>
    intro p hp
    simp only [run_step] at hp
    rw [record_treatment_history] at hp
    exact h p hp
  | escalate c =>
    intro p hp
    exact h p hp

theorem run_session_history_inBounds (steps : List Step) (s : Session)
    (h : HistoryInBounds s) : HistoryInBounds (run_session s steps) := by
  induction steps generalizing s with
  | nil => exact h
  | cons st rest ih =>
    exact ih (run_step s st) (run_step_history_inBounds s st h)

/-- Demonstration case vitals: the baseline of a healthy patient. -/
def demoVitals : Vitals :=
  { bp_systolic := 120, bp_diastolic := 80, hr := 80, rr := 16, temp := 37,
    spo2 := 98 }

/-- Demonstration draw vector with all random draws at zero. -/
def demoDraws : Draws := { u1 := 0, u2 := 0, u3 := 0, c1 := 0, c2 := 0 }

/-- Case-description vitals with a heart rate outside the clamp range, as a
case author may provide (`__init__` parses them without bounds checks). -/
def outOfRangeVitals : Vitals :=
  { bp_systolic := 120, bp_diastolic := 80, hr := 250, rr := 16, temp := 37,
    spo2 := 98 }

/-- C1 counterexample: the time-0 snapshot is taken directly from the
case-description vitals with no clamp, so a session whose case data carries
hr = 250 starts with a history snapshot outside the declared bounds. -/
theorem C1_counterexample :
    (0, outOfRangeVitals) ∈ (init_session outOfRangeVitals "intermediate").history ∧
    ¬ VitalsInBounds outOfRangeVitals := by
  constructor
  · simp [init_session]
  · with_unfolding_all decide

/-- C1 (amended): provided the initial case-description vitals are within
the clamp bounds, every vital-sign field lies within its bounds at every
snapshot of the vitals history, for every sequence of clock advances,
treatments and complication escalations; snapshots appended by clock
advances are clamped unconditionally, but the time-0 snapshot is exactly
the unclamped case vitals. -/
theorem C1_amended (v0 : Vitals) (difficulty : String) (steps : List Step)
    (h0 : VitalsInBounds v0) :
    ∀ p ∈ (run_session (init_session v0 difficulty) steps).history,
      VitalsInBounds p.2 := by
  refine run_session_history_inBounds steps _ ?_
  intro p hp
  simp only [init_session, List.mem_singleton] at hp
  subst hp
  exact h0

/-- C1 witness: the amended theorem applied to a concrete session and a
concrete clock advance. -/
theorem C1_amended_witness :
    VitalsInBounds demoVitals ∧
    ∀ p ∈ (run_session (init_session demoVitals "intermediate")
        [Step.advance "examine_patient" demoDraws]).history, VitalsInBounds p.2 :=
  ⟨by with_unfolding_all decide,
   C1_amended demoVitals "intermediate" [Step.advance "examine_patient" demoDraws]
     (by with_unfolding_all decide)⟩

/-! Diastolic blood pressure is a frame: no evolution branch and no
treatment delta ever writes it. -/

theorem evolve_vitals_diastolic (traj : PatientTrajectory) (m : ℤ) (d : Draws)
    (v : Vitals) (h1 : 30 ≤ v.bp_diastolic) (h2 : v.bp_diastolic ≤ 130) :
    (evolve_vitals traj m d v).bp_diastolic = v.bp_diastolic := by
  have hbranch :
      ∀ w : Vitals, w.bp_diastolic = v.bp_diastolic →
        (clamp_vitals w).bp_diastolic = v.bp_diastolic := by
    intro w hw
    simp only [clamp_vitals, hw]
    omega
  cases traj <;> exact hbranch _ rfl

theorem apply_effect_deltas_diastolic (e : Effects) (v : Vitals) :
    (apply_effect_deltas e v).bp_diastolic = v.bp_diastolic := by
  rcases e with ⟨h1, h2, h3, h4, h5⟩
  cases h1 <;> cases h2 <;> cases h3 <;> cases h4 <;> cases h5 <;> rfl

theorem apply_treatment_effects_diastolic (e : Effects) (a : Bool)
    (s : Session) :
    (apply_treatment_effects e a s).vitals.bp_diastolic =
      s.vitals.bp_diastolic := by
  unfold apply_treatment_effects
  split
  · exact apply_effect_deltas_diastolic _ _
  · rfl

/-- Invariant carried through a run for the diastolic frame property. -/
def DiastolicPinned (d0 : ℤ) (s : Session) : Prop :=
  s.vitals.bp_diastolic = d0 ∧ ∀ p ∈ s.history, p.2.bp_diastolic = d0

theorem run_step_diastolic (d0 : ℤ) (hlo : 30 ≤ d0) (hhi : d0 ≤ 130)
    (s : Session) (st : Step) (h : DiastolicPinned d0 s) :
    DiastolicPinned d0 (run_step s st) := by
  obtain ⟨hcur, hhist⟩ := h
  cases st with
  | advance action d =>
    have hev : (evolve_vitals s.traj (action_time_cost action) d s.vitals).bp_diastolic = d0 := by
      rw [evolve_vitals_diastolic _ _ _ _ (hcur ▸ hlo) (hcur ▸ hhi)]
      exact hcur
    constructor
    · exact hev
    · intro p hp
      simp only [run_step, advance_time, List.mem_append, List.mem_singleton] at hp
      rcases hp with hp | hp
      · exact hhist p hp
      · subst hp
        exact hev
  | treat dsc e a =>
    constructor
    · simp only [run_step, record_treatment]
      rw [apply_treatment_effects_diastolic]
      exact hcur
    · intro p hp
      simp only [run_step] at hp
      rw [record_treatment_history] at hp
      exact hhist p hp
  | escalate c =>
    exact ⟨hcur, hhist⟩

theorem run_session_diastolic (d0 : ℤ) (hlo : 30 ≤ d0) (hhi : d0 ≤ 130)
    (steps : List Step) (s : Session) (h : DiastolicPinned d0 s) :
    DiastolicPinned d0 (run_session s steps) := by
  induction steps generalizing s with
  | nil => exact h
  | cons st rest ih =>
    exact ih (run_step s st) (run_step_diastolic d0 hlo hhi s st h)

/-- C10: for every session whose initial diastolic blood pressure lies in
[30, 130], no evolution branch and no treatment-effect application ever
changes bp_diastolic — the current vitals and every history snapshot carry
the initial diastolic value for the whole life of the session. -/
theorem C10_diastolic_frame (v0 : Vitals) (difficulty : String)
    (steps : List Step) (hlo : 30 ≤ v0.bp_diastolic)
    (hhi : v0.bp_diastolic ≤ 130) :
    (run_session (init_session v0 difficulty) steps).vitals.bp_diastolic =
        v0.bp_diastolic ∧
    ∀ p ∈ (run_session (init_session v0 difficulty) steps).history,
      p.2.bp_diastolic = v0.bp_diastolic := by
  refine run_session_diastolic v0.bp_diastolic hlo hhi steps _ ⟨rfl, ?_⟩
  intro p hp
  simp only [init_session, List.mem_singleton] at hp
  subst hp
  rfl

/-- C10 witness: the frame theorem applied to a concrete session, a clock
advance and a treatment. -/
theorem C10_diastolic_frame_witness :
    30 ≤ demoVitals.bp_diastolic ∧ demoVitals.bp_diastolic ≤ 130 ∧
    (run_session (init_session demoVitals "intermediate")
        [Step.advance "examine_patient" demoDraws,
         Step.treat (String.toList "oxygen") { spo2_change := some 2 } true]).vitals.bp_diastolic =
      demoVitals.bp_diastolic :=
  ⟨by with_unfolding_all decide, by with_unfolding_all decide,
   (C10_diastolic_frame demoVitals "intermediate"
     [Step.advance "examine_patient" demoDraws,
      Step.treat (String.toList "oxygen") { spo2_change := some 2 } true]
     (by with_unfolding_all decide) (by with_unfolding_all decide)).1⟩

/-- C4: an investigation ordered at minute t0 with turnaround T transitions
Ordered to Ready with exactly one investigation-ready event when the clock
reaches exactly t0 + T, and transitions Ordered to Processing with zero
events when the clock reaches exactly t0 + T/2 (stated for even positive
turnarounds T = 2k, the only way an integer clock can equal t0 + T/2). -/
theorem C4_round_trip (inv : Inv) (h : inv.status = .ordered) :
    ((check_investigations (inv.ordered_at + inv.turnaround) [inv]).1 =
        [{ inv with status := .ready }] ∧
      (check_investigations (inv.ordered_at + inv.turnaround) [inv]).2 = 1) ∧
    (∀ k : ℤ, inv.turnaround = 2 * k → 0 < k →
      (check_investigations (inv.ordered_at + k) [inv]).1 =
          [{ inv with status := .processing }] ∧
        (check_investigations (inv.ordered_at + k) [inv]).2 = 0) := by
  constructor
  · have hc : check_one_investigation (inv.ordered_at + inv.turnaround) inv =
        ({ inv with status := .ready }, true) := by
      unfold check_one_investigation
      rw [if_pos (Or.inl h), if_pos (by omega)]
    constructor
    · simp [check_investigations, hc]
    · simp [check_investigations, hc]
  · intro k hk hkpos
    have hc : check_one_investigation (inv.ordered_at + k) inv =
        ({ inv with status := .processing }, false) := by
      unfold check_one_investigation
      rw [if_pos (Or.inl h), if_neg (by omega), if_pos ⟨by omega, h⟩]
    constructor
    · simp [check_investigations, hc]
    · simp [check_investigations, hc]

/-- C4 witness: a routine chest x-ray style order at minute 0 with
turnaround 30, checked at minute 30 and at minute 15. -/
theorem C4_round_trip_witness :
    (check_investigations 30 [⟨0, 30, .ordered⟩]).1 = [⟨0, 30, .ready⟩] ∧
    (check_investigations 30 [⟨0, 30, .ordered⟩]).2 = 1 ∧
    (check_investigations 15 [⟨0, 30, .ordered⟩]).1 = [⟨0, 30, .processing⟩] ∧
    (check_investigations 15 [⟨0, 30, .ordered⟩]).2 = 0 :=
  ⟨(C4_round_trip ⟨0, 30, .ordered⟩ rfl).1.1,
   (C4_round_trip ⟨0, 30, .ordered⟩ rfl).1.2,
   ((C4_round_trip ⟨0, 30, .ordered⟩ rfl).2 15 (by norm_num) (by norm_num)).1,
   ((C4_round_trip ⟨0, 30, .ordered⟩ rfl).2 15 (by norm_num) (by norm_num)).2⟩

/-- C5: recording a treatment moves the trajectory by exactly the one-step
rule — appropriate: Critical and Deteriorating to Stable, Stable to
Improving, Improving unchanged; inappropriate: Stable to Deteriorating,
Deteriorating to Critical, everything else unchanged. -/
theorem C5_trajectory_step (e : Effects) (app : Bool) (s : Session) :
    (apply_treatment_effects e app s).traj =
      match app, s.traj with
      | true, .critical => .stable
      | true, .deteriorating => .stable
      | true, .stable => .improving
      | true, .improving => .improving
      | false, .stable => .deteriorating
      | false, .deteriorating => .critical
      | false, .critical => .critical
      | false, .improving => .improving := by
  cases app <;> cases h : s.traj <;>
    simp [apply_treatment_effects, h]

/-- Severity order on trajectories: improving is best, critical worst. -/
def trajectory_severity : PatientTrajectory → ℕ
  | .improving => 0
  | .stable => 1
  | .deteriorating => 2
  | .critical => 3

/-- C6 counterexample: the emergency-table Compartment Syndrome has urgency
tier critical, yet firing it from Stable only moves the trajectory to
Deteriorating — escalation is keyed on the trajectory_effect field, not on
the urgency tier. -/
theorem C6_counterexample :
    compartmentSyndrome.urgency = "critical" ∧
    escalate_trajectory compartmentSyndrome .stable = .deteriorating ∧
    escalate_trajectory compartmentSyndrome .stable ≠ .critical := by
  with_unfolding_all decide

/-- C6 (amended): escalation follows the definition's trajectory_effect
field: effect "critical" forces Critical, effect "deteriorating" pushes
only Stable/Improving to Deteriorating, and a firing never moves the
trajectory to a better state. -/
theorem C6_amended (c : Complication) (t : PatientTrajectory) :
    (c.trajectory_effect = "critical" →
      escalate_trajectory c t = .critical) ∧
    (c.trajectory_effect = "deteriorating" →
      escalate_trajectory c t =
        (if t = .stable ∨ t = .improving then .deteriorating else t)) ∧
    trajectory_severity t ≤ trajectory_severity (escalate_trajectory c t) := by
  refine ⟨?_, ?_, ?_⟩
  · intro hc
    simp [escalate_trajectory, hc]
  · intro hc
    have hne : c.trajectory_effect ≠ "critical" := by
      rw [hc]; decide
    simp [escalate_trajectory, hc, hne]
  · unfold escalate_trajectory
    split
    · cases t <;> simp [trajectory_severity]
    · split
      · split
        · rename_i ht
          rcases ht with ht | ht <;> subst ht <;> simp [trajectory_severity]
        · exact le_refl _
      · exact le_refl _

/-- C6 witness: the amended escalation rule applied to the Septic Shock
definition (effect critical) fired from Stable. -/
theorem C6_amended_witness :
    escalate_trajectory septicShock .stable = .critical ∧
    trajectory_severity .stable ≤
      trajectory_severity (escalate_trajectory septicShock .stable) :=
  ⟨(C6_amended septicShock .stable).1 rfl,
   (C6_amended septicShock .stable).2.2⟩

/-- C7 counterexample: with the safety collaborator unreachable, an
investigation order is validated "safe" with no intervention message — not
the "caution"-with-flag default the claim states for investigations. -/
theorem C7_counterexample :
    validate_action_unreachable "order chest x-ray stat" "order_investigation" =
      { safety_level := "safe", nurse_intervention := none,
        senior_intervention := none, proceed := true } ∧
    (validate_action_unreachable "order chest x-ray stat"
        "order_investigation").safety_level ≠ "caution" ∧
    (validate_action_unreachable "order chest x-ray stat"
        "order_investigation").nurse_intervention = none := by
  with_unfolding_all decide

/-- C7 (amended): with the collaborator unreachable, a treatment order gets
the conservative default — "caution", proceed true, and a confirmation
flag from the nurse — while an investigation order is validated plain
"safe" with proceed true and no flag; in both cases the order proceeds
and the tick completes. -/
theorem C7_amended (student_action : String) :
    validate_action_unreachable student_action "order_treatment" =
      { safety_level := "caution",
        nurse_intervention :=
          some ("Doctor, just confirming the order — " ++ student_action ++
            ". Shall I proceed?"),
        senior_intervention := none, proceed := true } ∧
    validate_action_unreachable student_action "order_investigation" =
      { safety_level := "safe", nurse_intervention := none,
        senior_intervention := none, proceed := true } := by
  constructor
  · have h1 : ("order_treatment" ∈ safe_actions) = False := by
      simp [safe_actions]
    simp [validate_action_unreachable, h1, fallback_validation]
  · have h2 : ("order_investigation" ∈ safe_actions) = False := by
      simp [safe_actions]
    have h3 : ("order_investigation" = "order_treatment") = False := by
      simp
    simp [validate_action_unreachable, h2, fallback_validation, h3]

/-- C8 counterexample: the space-separated order text "chest x ray" matches
no mapping keyword, falls through to the underscored raw text, misses the
turnaround table and resolves to the default entry — not to xray_chest
with the chest-imaging turnaround and label. -/
theorem C8_counterexample :
    parse_investigation_type (String.toList "chest x ray") =
      String.toList "chest_x_ray" ∧
    (order_investigation_info
        (parse_investigation_type (String.toList "chest x ray")) false).1 ≠
      String.toList "xray_chest" ∧
    (order_investigation_info
        (parse_investigation_type (String.toList "chest x ray")) false).2.1 = 180 ∧
    (order_investigation_info
        (parse_investigation_type (String.toList "chest x ray")) false).2.2 =
      "Investigation" := by
  with_unfolding_all decide

/-- C8 (amended): hyphenated, concatenated and abbreviated chest x-ray
order texts resolve, in any casing, to the canonical key xray_chest with
turnaround 30 (routine) / 15 (urgent) and label "Chest X-ray PA"; the
space-separated form "chest x ray" instead falls through to the default
table entry (turnaround 180/60, label "Investigation"). -/
theorem C8_amended :
    parse_investigation_type (String.toList "chest x-ray") =
      String.toList "xray_chest" ∧
    parse_investigation_type (String.toList "Chest X-Ray") =
      String.toList "xray_chest" ∧
    parse_investigation_type (String.toList "chest xray") =
      String.toList "xray_chest" ∧
    parse_investigation_type (String.toList "CXR") =
      String.toList "xray_chest" ∧
    order_investigation_info (String.toList "xray_chest") false =
      (String.toList "xray_chest", 30, "Chest X-ray PA") ∧
    order_investigation_info (String.toList "xray_chest") true =
      (String.toList "xray_chest", 15, "Chest X-ray PA") ∧
    parse_investigation_type (String.toList "chest x ray") =
      String.toList "chest_x_ray" ∧
    order_investigation_info (String.toList "chest_x_ray") false =
      (String.toList "chest_x_ray", 180, "Investigation") := by
  with_unfolding_all decide

/-! Probability-damping lemmas for the treated multiplier. -/

theorem criteria_step_nonneg (v : Vitals) (m : ℚ) (crit : String × ℚ)
    (hm : 0 ≤ m) : 0 ≤ criteria_step v m crit := by
  have h32 : 0 ≤ m * (3/2) := mul_nonneg hm (by norm_num)
  unfold criteria_step
  split_ifs <;> first | exact hm | exact h32

theorem evaluate_vitals_criteria_nonneg (c : Complication) (v : Vitals) :
    0 ≤ evaluate_vitals_criteria c v := by
  unfold evaluate_vitals_criteria
  split
  · norm_num
  · have hgen : ∀ (l : List (String × ℚ)) (m : ℚ), 0 ≤ m →
        0 ≤ l.foldl (criteria_step v) m := by
      intro l
      induction l with
      | nil => intro m hm; exact hm
      | cons crit rest ih =>
        intro m hm
        exact ih _ (criteria_step_nonneg v m crit hm)
    exact hgen _ 1 (by norm_num)

theorem raw_probability_treated (c : Complication) (elapsed : ℤ) (v : Vitals)
    (dm : ℚ) :
    raw_probability c elapsed true v dm =
      (1/20) * raw_probability c elapsed false v dm := by
  unfold raw_probability
  simp only [if_true, if_false, Bool.false_eq_true, ite_true, ite_false]
  ring

theorem raw_probability_untreated_nonneg (c : Complication) (elapsed : ℤ)
    (v : Vitals) (dm : ℚ) (hw : c.time_window.1 ≤ elapsed)
    (hb : 0 ≤ c.probability_base) (hd : 0 ≤ dm) :
    0 ≤ raw_probability c elapsed false v dm := by
  unfold raw_probability
  simp only [Bool.false_eq_true, ite_false]
  have hboost := evaluate_vitals_criteria_nonneg c v
  have hwd : (1 : ℚ) ≤ pyMaxQ ((c.time_window.2 : ℚ) - (c.time_window.1 : ℚ)) 1 := by
    unfold pyMaxQ
    split <;> linarith
  have hpeak : 0 < pyMaxQ ((c.time_window.2 : ℚ) - (c.time_window.1 : ℚ)) 1 * (3/4) := by
    nlinarith
  have htf : 0 ≤
      (if ((elapsed : ℚ) - (c.time_window.1 : ℚ)) ≤
          pyMaxQ ((c.time_window.2 : ℚ) - (c.time_window.1 : ℚ)) 1 * (3/4) then
        ((elapsed : ℚ) - (c.time_window.1 : ℚ)) /
          (pyMaxQ ((c.time_window.2 : ℚ) - (c.time_window.1 : ℚ)) 1 * (3/4))
      else 1) := by
    have hnum : (0 : ℚ) ≤ (elapsed : ℚ) - (c.time_window.1 : ℚ) := by
      have : ((c.time_window.1 : ℤ) : ℚ) ≤ (elapsed : ℚ) := by exact_mod_cast hw
      linarith
    split
    · exact div_nonneg hnum (le_of_lt hpeak)
    · norm_num
  positivity

theorem calculate_probability_of_raw (c : Complication) (elapsed : ℤ)
    (treated : Bool) (v : Vitals) (dm : ℚ)
    (h0 : 0 ≤ raw_probability c elapsed treated v dm)
    (h6 : raw_probability c elapsed treated v dm ≤ 3/5) :
    calculate_probability c elapsed treated v dm =
      raw_probability c elapsed treated v dm := by
  unfold calculate_probability pyMinQ pyMaxQ
  split
  · split <;> linarith
  · split <;> linarith

/-- The vitals of a septic patient matching all three Septic Shock
criteria. -/
def septicCaseVitals : Vitals :=
  { bp_systolic := 85, bp_diastolic := 60, hr := 120, rr := 28, temp := 39,
    spo2 := 90 }

/-- C3 counterexample: for Septic Shock at minute 120 (inside its window)
on an advanced case with all three vital criteria matched, the untreated
probability hits the 0.6 cap, so giving a matching antibiotic treatment
leaves p_after = 0.0455625, which is not 0.05 times the (capped) 0.6. -/
theorem C3_counterexample :
    septicShock.time_window.1 ≤ 120 ∧ 120 ≤ septicShock.time_window.2 ∧
    is_treated septicShock (collect_treatment_keywords []) = false ∧
    is_treated septicShock
      (collect_treatment_keywords [String.toList "iv antibiotics stat"]) = true ∧
    calculate_probability septicShock 120
        (is_treated septicShock
          (collect_treatment_keywords [String.toList "iv antibiotics stat"]))
        septicCaseVitals (3/2) ≠
      (1/20) *
        calculate_probability septicShock 120
          (is_treated septicShock (collect_treatment_keywords []))
          septicCaseVitals (3/2) := by
  with_unfolding_all decide

/-- C3 (amended): when the treatment list changes from matching no
prevention keyword to matching one (everything else fixed), the per-tick
probability satisfies p_after = 0.05 * p_before exactly, provided the
pre-treatment raw probability does not exceed the 0.6 cap (and the inputs
are in range: the elapsed minute has reached the window start, and base
probability and difficulty multiplier are nonnegative). -/
theorem C3_amended (c : Complication) (elapsed : ℤ) (v : Vitals) (dm : ℚ)
    (ks1 ks2 : List (List Char))
    (h1 : is_treated c ks1 = false) (h2 : is_treated c ks2 = true)
    (hw : c.time_window.1 ≤ elapsed)
    (hb : 0 ≤ c.probability_base) (hd : 0 ≤ dm)
    (hcap : raw_probability c elapsed false v dm ≤ 3/5) :
    calculate_probability c elapsed (is_treated c ks2) v dm =
      (1/20) * calculate_probability c elapsed (is_treated c ks1) v dm := by
  rw [h1, h2]
  have hraw0 := raw_probability_untreated_nonneg c elapsed v dm hw hb hd
  have htrue := raw_probability_treated c elapsed v dm
  have htrue0 : 0 ≤ raw_probability c elapsed true v dm := by
    rw [htrue]; linarith
  have htrue6 : raw_probability c elapsed true v dm ≤ 3/5 := by
    rw [htrue]; linarith
  rw [calculate_probability_of_raw c elapsed true v dm htrue0 htrue6,
      calculate_probability_of_raw c elapsed false v dm hraw0 hcap]
  exact htrue

/-- C3 witness: the amended damping law applied to Cardiogenic Shock at
minute 180 on normal vitals, before and after an aspirin order. -/
theorem C3_amended_witness :
    is_treated cardiogenicShock (collect_treatment_keywords []) = false ∧
    is_treated cardiogenicShock
      (collect_treatment_keywords [String.toList "aspirin 325 mg"]) = true ∧
    raw_probability cardiogenicShock 180 false demoVitals 1 ≤ 3/5 ∧
    calculate_probability cardiogenicShock 180
        (is_treated cardiogenicShock
          (collect_treatment_keywords [String.toList "aspirin 325 mg"]))
        demoVitals 1 =
      (1/20) *
        calculate_probability cardiogenicShock 180
          (is_treated cardiogenicShock (collect_treatment_keywords []))
          demoVitals 1 :=
  ⟨by with_unfolding_all decide, by with_unfolding_all decide,
   by with_unfolding_all decide,
   C3_amended cardiogenicShock 180 demoVitals 1
     (collect_treatment_keywords [])
     (collect_treatment_keywords [String.toList "aspirin 325 mg"])
     (by with_unfolding_all decide) (by with_unfolding_all decide)
     (by with_unfolding_all decide) (by with_unfolding_all decide)
     (by norm_num) (by with_unfolding_all decide)⟩

/-! One-shot firing: lemmas about the complication loop. -/

theorem mem_pyInsert_self (n : String) (l : List String) : n ∈ pyInsert n l := by
  unfold pyInsert
  split
  · assumption
  · simp

theorem mem_pyInsert_of_mem {x : String} (n : String) {l : List String}
    (h : x ∈ l) : x ∈ pyInsert n l := by
  unfold pyInsert
  split
  · exact h
  · exact List.mem_append_left _ h

theorem mem_pyInsert {x n : String} {l : List String} :
    x ∈ pyInsert n l ↔ x = n ∨ x ∈ l := by
  unfold pyInsert
  split
  · rename_i hn
    constructor
    · exact Or.inr
    · rintro (rfl | h)
      · exact hn
      · exact h
  · simp [or_comm]

theorem pyInsert_nodup {n : String} {l : List String} (h : l.Nodup) :
    (pyInsert n l).Nodup := by
  unfold pyInsert
  split
  · exact h
  · rename_i hn
    refine h.append (List.nodup_singleton n) ?_
    intro a ha hb
    simp only [List.mem_singleton] at hb
    subst hb
    exact hn ha

section ComplicationLoopLemmas

variable (e : ℤ) (v : Vitals) (ks : List (List Char)) (dm : ℚ) (dr : ℕ → ℚ)

theorem go_fired_subset (comps : List Complication) :
    ∀ (i : ℕ) (st : EngineState) (x : String), x ∈ st.fired →
      x ∈ (check_complications_go e v ks dm dr comps i st).1.fired := by
  induction comps with
  | nil =>
    intro i st x hx
    simpa [check_complications_go] using hx
  | cons c rest ih =>
    intro i st x hx
    simp only [check_complications_go]
    by_cases hmem : c.name ∈ st.fired
    · rw [if_pos hmem]
      exact ih _ _ _ hx
    · rw [if_neg hmem]
      by_cases hwin : e < c.time_window.1 ∨ c.time_window.2 < e
      · rw [if_pos hwin]
        exact ih _ _ _ hx
      · rw [if_neg hwin]
        by_cases hdraw : dr i < calculate_probability c e (is_treated c ks) v dm
        · rw [if_pos hdraw]
          exact ih _ _ _ (mem_pyInsert_of_mem _ hx)
        · rw [if_neg hdraw]
          exact ih _ _ _ hx

theorem go_events_count_zero (comps : List Complication) :
    ∀ (i : ℕ) (st : EngineState) (x : String), x ∈ st.fired →
      ((check_complications_go e v ks dm dr comps i st).2).count x = 0 := by
  induction comps with
  | nil =>
    intro i st x hx
    simp [check_complications_go]
  | cons c rest ih =>
    intro i st x hx
    simp only [check_complications_go]
    by_cases hmem : c.name ∈ st.fired
    · rw [if_pos hmem]
      exact ih _ _ _ hx
    · rw [if_neg hmem]
      by_cases hwin : e < c.time_window.1 ∨ c.time_window.2 < e
      · rw [if_pos hwin]
        exact ih _ _ _ hx
      · rw [if_neg hwin]
        by_cases hdraw : dr i < calculate_probability c e (is_treated c ks) v dm
        · rw [if_pos hdraw]
          have hne : x ≠ c.name := by
            intro hxc
            exact hmem (hxc ▸ hx)
          rw [List.count_cons_of_ne hne]
          exact ih _ _ _ (mem_pyInsert_of_mem _ hx)
        · rw [if_neg hdraw]
          exact ih _ _ _ hx

theorem go_events_count_le_one (comps : List Complication) :
    ∀ (i : ℕ) (st : EngineState) (x : String),
      ((check_complications_go e v ks dm dr comps i st).2).count x ≤ 1 := by
  induction comps with
  | nil =>
    intro i st x
    simp [check_complications_go]
  | cons c rest ih =>
    intro i st x
    simp only [check_complications_go]
    by_cases hmem : c.name ∈ st.fired
    · rw [if_pos hmem]
      exact ih _ _ _
    · rw [if_neg hmem]
      by_cases hwin : e < c.time_window.1 ∨ c.time_window.2 < e
      · rw [if_pos hwin]
        exact ih _ _ _
      · rw [if_neg hwin]
        by_cases hdraw : dr i < calculate_probability c e (is_treated c ks) v dm
        · rw [if_pos hdraw]
          by_cases hxc : x = c.name
          · rw [hxc, List.count_cons_self]
            have h0 := go_events_count_zero e v ks dm dr rest (i + 1)
              { st with fired := pyInsert c.name st.fired,
                        traj := escalate_trajectory c st.traj } c.name
              (mem_pyInsert_self c.name st.fired)
            omega
          · rw [List.count_cons_of_ne hxc]
            exact ih _ _ _
        · rw [if_neg hdraw]
          exact ih _ _ _

theorem go_fired_of_event (comps : List Complication) :
    ∀ (i : ℕ) (st : EngineState) (x : String),
      x ∈ (check_complications_go e v ks dm dr comps i st).2 →
      x ∈ (check_complications_go e v ks dm dr comps i st).1.fired := by
  induction comps with
  | nil =>
    intro i st x hx
    simp [check_complications_go] at hx
  | cons c rest ih =>
    intro i st x hx
    simp only [check_complications_go] at hx ⊢
    by_cases hmem : c.name ∈ st.fired
    · rw [if_pos hmem] at hx ⊢
      exact ih _ _ _ hx
    · rw [if_neg hmem] at hx ⊢
      by_cases hwin : e < c.time_window.1 ∨ c.time_window.2 < e
      · rw [if_pos hwin] at hx ⊢
        exact ih _ _ _ hx
      · rw [if_neg hwin] at hx ⊢
        by_cases hdraw : dr i < calculate_probability c e (is_treated c ks) v dm
        · rw [if_pos hdraw] at hx ⊢
          rcases List.mem_cons.mp hx with hxc | hxr
          · subst hxc
            exact go_fired_subset e v ks dm dr rest (i + 1) _ c.name
              (mem_pyInsert_self c.name st.fired)
          · exact ih _ _ _ hxr
        · rw [if_neg hdraw] at hx ⊢
          exact ih _ _ _ hx

theorem go_fired_src (comps : List Complication) :
    ∀ (i : ℕ) (st : EngineState) (x : String),
      x ∈ (check_complications_go e v ks dm dr comps i st).1.fired →
      x ∈ st.fired ∨ x ∈ (check_complications_go e v ks dm dr comps i st).2 := by
  induction comps with
  | nil =>
    intro i st x hx
    simp only [check_complications_go] at hx
    exact Or.inl hx
  | cons c rest ih =>
    intro i st x hx
    simp only [check_complications_go] at hx ⊢
    by_cases hmem : c.name ∈ st.fired
    · rw [if_pos hmem] at hx ⊢
      exact ih _ _ _ hx
    · rw [if_neg hmem] at hx ⊢
      by_cases hwin : e < c.time_window.1 ∨ c.time_window.2 < e
      · rw [if_pos hwin] at hx ⊢
        exact ih _ _ _ hx
      · rw [if_neg hwin] at hx ⊢
        by_cases hdraw : dr i < calculate_probability c e (is_treated c ks) v dm
        · rw [if_pos hdraw] at hx ⊢
          rcases ih _ _ _ hx with hst1 | hev
          · rcases mem_pyInsert.mp hst1 with hxc | hst
            · subst hxc
              exact Or.inr (List.mem_cons_self _ _)
            · exact Or.inl hst
          · exact Or.inr (List.mem_cons_of_mem _ hev)
        · rw [if_neg hdraw] at hx ⊢
          exact ih _ _ _ hx

theorem go_fired_nodup (comps : List Complication) :
    ∀ (i : ℕ) (st : EngineState), st.fired.Nodup →
      (check_complications_go e v ks dm dr comps i st).1.fired.Nodup := by
  induction comps with
  | nil =>
    intro i st h
    simpa [check_complications_go] using h
  | cons c rest ih =>
    intro i st h
    simp only [check_complications_go]
    by_cases hmem : c.name ∈ st.fired
    · rw [if_pos hmem]
      exact ih _ _ h
    · rw [if_neg hmem]
      by_cases hwin : e < c.time_window.1 ∨ c.time_window.2 < e
      · rw [if_pos hwin]
        exact ih _ _ h
      · rw [if_neg hwin]
        by_cases hdraw : dr i < calculate_probability c e (is_treated c ks) v dm
        · rw [if_pos hdraw]
          exact ih _ _ (pyInsert_nodup h)
        · rw [if_neg hdraw]
          exact ih _ _ h

theorem go_fired_distractions_const (comps : List Complication) :
    ∀ (i : ℕ) (st : EngineState),
      (check_complications_go e v ks dm dr comps i st).1.fired_distractions =
        st.fired_distractions := by
  induction comps with
  | nil =>
    intro i st
    rfl
  | cons c rest ih =>
    intro i st
    simp only [check_complications_go]
    by_cases hmem : c.name ∈ st.fired
    · rw [if_pos hmem]
      exact ih _ _
    · rw [if_neg hmem]
      by_cases hwin : e < c.time_window.1 ∨ c.time_window.2 < e
      · rw [if_pos hwin]
        exact ih _ _
      · rw [if_neg hwin]
        by_cases hdraw : dr i < calculate_probability c e (is_treated c ks) v dm
        · rw [if_pos hdraw]
          exact ih _ _
        · rw [if_neg hdraw]
          exact ih _ _

end ComplicationLoopLemmas

theorem tick_events (comps : List Complication) (dm : ℚ) (t : TickInput)
    (st : EngineState) :
    (check_complications comps dm t st).2.1 =
      (check_complications_go t.elapsed t.vitals
        (collect_treatment_keywords t.treatments) dm t.drawsC comps 0 st).2 :=
  rfl

theorem tick_fired (comps : List Complication) (dm : ℚ) (t : TickInput)
    (st : EngineState) :
    (check_complications comps dm t st).1.fired =
      (check_complications_go t.elapsed t.vitals
        (collect_treatment_keywords t.treatments) dm t.drawsC comps 0 st).1.fired :=
  rfl

theorem run_fired_subset (comps : List Complication) (dm : ℚ) :
    ∀ (ts : List TickInput) (st : EngineState) (x : String), x ∈ st.fired →
      x ∈ (engine_run comps dm ts st).1.fired := by
  intro ts
  induction ts with
  | nil =>
    intro st x hx
    exact hx
  | cons t rest ih =>
    intro st x hx
    simp only [engine_run]
    refine ih _ _ ?_
    rw [tick_fired]
    exact go_fired_subset _ _ _ _ _ _ _ _ _ hx

theorem run_events_count_zero (comps : List Complication) (dm : ℚ) :
    ∀ (ts : List TickInput) (st : EngineState) (x : String), x ∈ st.fired →
      ((engine_run comps dm ts st).2.1).count x = 0 := by
  intro ts
  induction ts with
  | nil =>
    intro st x hx
    simp [engine_run]
  | cons t rest ih =>
    intro st x hx
    simp only [engine_run, List.count_append]
    have h1 : ((check_complications comps dm t st).2.1).count x = 0 := by
      rw [tick_events]
      exact go_events_count_zero _ _ _ _ _ _ _ _ _ hx
    have h2 : x ∈ (check_complications comps dm t st).1.fired := by
      rw [tick_fired]
      exact go_fired_subset _ _ _ _ _ _ _ _ _ hx
    rw [h1, ih _ _ h2]

theorem run_events_count_le_one (comps : List Complication) (dm : ℚ) :
    ∀ (ts : List TickInput) (st : EngineState) (x : String),
      ((engine_run comps dm ts st).2.1).count x ≤ 1 := by
  intro ts
  induction ts with
  | nil =>
    intro st x
    simp [engine_run]
  | cons t rest ih =>
    intro st x
    by_cases hx : x ∈ st.fired
    · rw [run_events_count_zero comps dm (t :: rest) st x hx]
      omega
    · simp only [engine_run, List.count_append]
      by_cases hxe : x ∈ (check_complications comps dm t st).2.1
      · have h1 : ((check_complications comps dm t st).2.1).count x ≤ 1 := by
          rw [tick_events]
          exact go_events_count_le_one _ _ _ _ _ _ _ _ _
        have h2 : x ∈ (check_complications comps dm t st).1.fired := by
          rw [tick_fired]
          rw [tick_events] at hxe
          exact go_fired_of_event _ _ _ _ _ _ _ _ _ hxe
        rw [run_events_count_zero comps dm rest _ x h2]
        omega
      · have h1 : ((check_complications comps dm t st).2.1).count x = 0 :=
          List.count_eq_zero.mpr hxe
        rw [h1]
        have h2 := ih (check_complications comps dm t st).1 x
        omega

theorem run_fired_nodup (comps : List Complication) (dm : ℚ) :
    ∀ (ts : List TickInput) (st : EngineState), st.fired.Nodup →
      (engine_run comps dm ts st).1.fired.Nodup := by
  intro ts
  induction ts with
  | nil =>
    intro st h
    exact h
  | cons t rest ih =>
    intro st h
    simp only [engine_run]
    refine ih _ ?_
    rw [tick_fired]
    exact go_fired_nodup _ _ _ _ _ _ _ _ h

/-- C2: from a fresh engine, over any tick sequence with any draw outcomes,
a complication name X is emitted as an event at most once, the fired set
contains X at most once, and once X is in the fired set every later tick
skips it and emits no further X event. -/
theorem C2_once (X : String) (comps : List Complication) (dm : ℚ)
    (traj0 : PatientTrajectory) (ts1 ts2 : List TickInput) :
    ((engine_run comps dm (ts1 ++ ts2) (init_engine traj0)).2.1).count X ≤ 1 ∧
    ((engine_run comps dm (ts1 ++ ts2) (init_engine traj0)).1.fired).count X ≤ 1 ∧
    (X ∈ (engine_run comps dm ts1 (init_engine traj0)).1.fired →
      ((engine_run comps dm ts2
          (engine_run comps dm ts1 (init_engine traj0)).1).2.1).count X = 0) := by
  refine ⟨run_events_count_le_one comps dm _ _ X, ?_, ?_⟩
  · have hnd : (engine_run comps dm (ts1 ++ ts2) (init_engine traj0)).1.fired.Nodup :=
      run_fired_nodup comps dm _ _ (by simp [init_engine])
    exact List.nodup_iff_count_le_one.mp hnd X
  · intro hX
    exact run_events_count_zero comps dm ts2 _ X hX

/-- A demonstration tick: Septic Shock conditions at minute 120 with the
complication draw forced to 0 and the distraction draw forced to 1. -/
def demoTick : TickInput :=
  { elapsed := 120, vitals := septicCaseVitals, treatments := [],
    drawsC := fun _ => 0, drawsD := fun _ => 1 }

/-- C2 witness: Septic Shock fires on the first demonstration tick, and
from the resulting state a second identical tick emits no event for it. -/
theorem C2_once_witness :
    "Septic Shock" ∈
      (engine_run [septicShock] 1 [demoTick] (init_engine .stable)).1.fired ∧
    ((engine_run [septicShock] 1 [demoTick]
        (engine_run [septicShock] 1 [demoTick]
          (init_engine .stable)).1).2.1).count "Septic Shock" = 0 :=
  ⟨by with_unfolding_all decide,
   (C2_once "Septic Shock" [septicShock] 1 .stable [demoTick] [demoTick]).2.2
     (by with_unfolding_all decide)⟩

/-! Distraction cap lemmas. -/

section DistractionLemmas

variable (e : ℤ) (dm : ℚ) (dr : ℕ → ℚ)

theorem dist_go_none (dists : List Distraction) :
    ∀ (i : ℕ) (fd : List String),
      (check_distractions_go e dm dr dists i fd).2 = none →
      (check_distractions_go e dm dr dists i fd).1 = fd := by
  induction dists with
  | nil =>
    intro i fd _
    rfl
  | cons d rest ih =>
    intro i fd h
    simp only [check_distractions_go] at h ⊢
    by_cases hmem : d.name ∈ fd
    · rw [if_pos hmem] at h ⊢
      exact ih _ _ h
    · rw [if_neg hmem] at h ⊢
      by_cases hwin : e < d.min_time ∨ d.max_time < e
      · rw [if_pos hwin] at h ⊢
        exact ih _ _ h
      · rw [if_neg hwin] at h ⊢
        by_cases hdraw : dr i < d.probability * dm
        · rw [if_pos hdraw] at h
          simp at h
        · rw [if_neg hdraw] at h ⊢
          exact ih _ _ h

theorem dist_go_some (dists : List Distraction) :
    ∀ (i : ℕ) (fd : List String) (n : String),
      (check_distractions_go e dm dr dists i fd).2 = some n →
      (check_distractions_go e dm dr dists i fd).1.length = fd.length + 1 := by
  induction dists with
  | nil =>
    intro i fd n h
    simp [check_distractions_go] at h
  | cons d rest ih =>
    intro i fd n h
    simp only [check_distractions_go] at h ⊢
    by_cases hmem : d.name ∈ fd
    · rw [if_pos hmem] at h ⊢
      exact ih _ _ _ h
    · rw [if_neg hmem] at h ⊢
      by_cases hwin : e < d.min_time ∨ d.max_time < e
      · rw [if_pos hwin] at h ⊢
        exact ih _ _ _ h
      · rw [if_neg hwin] at h ⊢
        by_cases hdraw : dr i < d.probability * dm
        · rw [if_pos hdraw]
          simp only [pyInsert, if_neg hmem]
          simp
        · rw [if_neg hdraw] at h ⊢
          exact ih _ _ _ h

theorem check_distractions_spec (fd : List String) :
    ((check_distractions e dm dr fd).2 = none ∧
      (check_distractions e dm dr fd).1 = fd) ∨
    ((check_distractions e dm dr fd).2.isSome = true ∧ fd.length ≤ 1 ∧
      (check_distractions e dm dr fd).1.length = fd.length + 1) := by
  unfold check_distractions
  split
  · left
    exact ⟨rfl, rfl⟩
  · rename_i hlen
    cases hopt : (check_distractions_go e dm dr DISTRACTION_EVENTS 0 fd).2 with
    | none =>
      left
      exact ⟨rfl, dist_go_none e dm dr _ _ _ hopt⟩
    | some n =>
      right
      exact ⟨rfl, by omega, dist_go_some e dm dr _ _ _ _ hopt⟩

end DistractionLemmas

theorem run_dist_count (comps : List Complication) (dm : ℚ) :
    ∀ (ts : List TickInput) (st : EngineState),
      st.fired_distractions.length ≤ 2 →
      (engine_run comps dm ts st).2.2 + st.fired_distractions.length ≤ 2 ∧
      (engine_run comps dm ts st).1.fired_distractions.length ≤ 2 := by
  intro ts
  induction ts with
  | nil =>
    intro st h
    simp only [engine_run]
    exact ⟨by omega, h⟩
  | cons t rest ih =>
    intro st h
    have hfd : (check_complications_go t.elapsed t.vitals
        (collect_treatment_keywords t.treatments) dm t.drawsC comps 0
        st).1.fired_distractions = st.fired_distractions :=
      go_fired_distractions_const _ _ _ _ _ _ _ _
    have hst1fd : (check_complications comps dm t st).1.fired_distractions =
        (check_distractions t.elapsed dm t.drawsD st.fired_distractions).1 := by
      show (check_distractions t.elapsed dm t.drawsD
        (check_complications_go t.elapsed t.vitals
          (collect_treatment_keywords t.treatments) dm t.drawsC comps 0
          st).1.fired_distractions).1 = _
      rw [hfd]
    have hdist : (check_complications comps dm t st).2.2 =
        (check_distractions t.elapsed dm t.drawsD st.fired_distractions).2 := by
      show (check_distractions t.elapsed dm t.drawsD
        (check_complications_go t.elapsed t.vitals
          (collect_treatment_keywords t.treatments) dm t.drawsC comps 0
          st).1.fired_distractions).2 = _
      rw [hfd]
    rcases check_distractions_spec t.elapsed dm t.drawsD st.fired_distractions with
      ⟨hnone, heq⟩ | ⟨hsome, hle, hlen⟩
    · have h1 : (check_complications comps dm t st).1.fired_distractions.length ≤ 2 := by
        rw [hst1fd, heq]
        exact h
      obtain ⟨ha, hb⟩ := ih (check_complications comps dm t st).1 h1
      constructor
      · simp only [engine_run]
        rw [hdist, hnone]
        simp only [Option.isSome_none, Bool.false_eq_true, if_false]
        rw [hst1fd, heq] at ha
        omega
      · simp only [engine_run]
        exact hb
    · have h1 : (check_complications comps dm t st).1.fired_distractions.length ≤ 2 := by
        rw [hst1fd, hlen]
        omega
      obtain ⟨ha, hb⟩ := ih (check_complications comps dm t st).1 h1
      constructor
      · simp only [engine_run]
        rw [hdist, hsome]
        simp only [if_true]
        rw [hst1fd, hlen] at ha
        omega
      · simp only [engine_run]
        exact hb

/-- C9: from a fresh engine, over any sequence of ticks (any elapsed times,
vitals, treatments and draw outcomes), at most two distraction events ever
fire, and the fired-distraction set never exceeds two names. -/
theorem C9_distraction_cap (comps : List Complication) (dm : ℚ)
    (traj0 : PatientTrajectory) (ts : List TickInput) :
    (engine_run comps dm ts (init_engine traj0)).2.2 ≤ 2 ∧
    (engine_run comps dm ts (init_engine traj0)).1.fired_distractions.length ≤ 2 := by
  have h := run_dist_count comps dm ts (init_engine traj0) (by simp [init_engine])
  refine ⟨?_, h.2⟩
  have h1 := h.1
  simp only [init_engine, List.length_nil] at h1
  omega

end ClinicalMind
